import Mathlib

/-!
Shallow embedding of the panopaea discrete-exterior-calculus grid operators
(src/panopaea/src/dec/grid.rs and src/panopaea/src/dec/manifold.rs) and of
the bounded spatial-hash grid (src/panopaea/src/sph/grid.rs).

Dense 2D arrays are modelled as total functions `ℕ → ℕ → K` over a field `K`
(the source is generic over `LinalgScalar + Neg`, instantiated at f32/f64;
we use exact field arithmetic).  A staggered 1-form is modelled by its two
split blocks (the source packs them in one buffer; `split` exposes exactly
these two views, and every operator in scope reads and writes only through
the split views, so the pair is a faithful model).  Mutating operators take
the prior contents of their output array as an explicit argument and return
the updated array; each ndarray `Zip` pass over a slice is one `zipWrite`
over the corresponding index region, applied in the same statement order as
the source (the outermost `zipWrite` is the last write, so later passes
shadow earlier ones exactly as in-place mutation does).
-/

namespace Panopaea

variable {K : Type} [Field K]

/-- One ndarray `Zip` assignment pass: on the index region `P`, write
`src i j`; elsewhere keep the prior contents `dst i j`. -/
def zipWrite (P : ℕ → ℕ → Prop) [∀ i j, Decidable (P i j)]
    (src dst : ℕ → ℕ → K) : ℕ → ℕ → K :=
  fun i j => if P i j then src i j else dst i j

/-- A staggered 1-form (`Staggered2d` in dec/grid.rs), modelled by its two
split blocks: `vert` is the vertical-edge block (shape `(h+1, w)`, block 0
of `split`), `horiz` is the horizontal-edge block (shape `(h, w+1)`,
block 1 of `split`). -/
structure Staggered2d (K : Type) where
  vert : ℕ → ℕ → K
  horiz : ℕ → ℕ → K

/-- Zero-initialized 2D array, as produced by `new_simplex_0` /
`new_simplex_2` (dec/grid.rs lines 205-218). -/
def zero2 : ℕ → ℕ → K := fun _ _ => 0

/-- Zero-initialized staggered 1-form, as produced by `new_simplex_1`. -/
def zeroS : Staggered2d K := ⟨zero2, zero2⟩

/-- `num_elem_0` for `Grid2d` with `dim = (h, w)`. -/
def num_elem_0 (h w : ℕ) : ℕ := (h + 1) * (w + 1)

/-- `num_elem_1` for `Grid2d`. -/
def num_elem_1 (h w : ℕ) : ℕ := (h + 1) * w + h * (w + 1)

/-- `num_elem_2` for `Grid2d`. -/
def num_elem_2 (h w : ℕ) : ℕ := h * w

/-- `Hodge0::apply` for `Grid2d` (dec/grid.rs lines 52-94), on a grid with
`dim = (h, w)` (faces); the operand arrays have shape `(h+1, w+1)`.
The source performs, in order: the four single-element corner writes at
`(0,0)`, `(0,w-1)`, `(h-1,0)`, `(h-1,w-1)` with weight 1/4; the four side
passes over `s![..1, 1..-1]`, `s![-1.., 1..-1]`, `s![1..-1, ..1]`,
`s![1..-1, -1..]` with weight 1/2 (on the `(h+1, w+1)` shape these regions
are row 0 / row h at columns `1 ≤ j < w` and column 0 / column w at rows
`1 ≤ i < h`); and the inner copy over `s![1..-1, 1..-1]`.
Reading bottom-up below reproduces that statement order; the outermost
`zipWrite` is the last pass. -/
def hodge0_apply (h w : ℕ) (dual primal : ℕ → ℕ → K) : ℕ → ℕ → K :=
  zipWrite (fun i j => 1 ≤ i ∧ i < h ∧ 1 ≤ j ∧ j < w) (fun i j => primal i j) <|
  zipWrite (fun i j => 1 ≤ i ∧ i < h ∧ j = w) (fun i j => primal i j / 2) <|
  zipWrite (fun i j => 1 ≤ i ∧ i < h ∧ j = 0) (fun i j => primal i j / 2) <|
  zipWrite (fun i j => i = h ∧ 1 ≤ j ∧ j < w) (fun i j => primal i j / 2) <|
  zipWrite (fun i j => i = 0 ∧ 1 ≤ j ∧ j < w) (fun i j => primal i j / 2) <|
  zipWrite (fun i j => i = h - 1 ∧ j = w - 1) (fun i j => primal i j / 4) <|
  zipWrite (fun i j => i = h - 1 ∧ j = 0) (fun i j => primal i j / 4) <|
  zipWrite (fun i j => i = 0 ∧ j = w - 1) (fun i j => primal i j / 4) <|
  zipWrite (fun i j => i = 0 ∧ j = 0) (fun i j => primal i j / 4) dual

/-- `Hodge0::apply_inv` for `Grid2d` (dec/grid.rs lines 95-137): identical
region structure to `hodge0_apply`, with weights `* 4` on the corner writes
and `* 2` on the side passes. -/
def hodge0_apply_inv (h w : ℕ) (primal dual : ℕ → ℕ → K) : ℕ → ℕ → K :=
  zipWrite (fun i j => 1 ≤ i ∧ i < h ∧ 1 ≤ j ∧ j < w) (fun i j => dual i j) <|
  zipWrite (fun i j => 1 ≤ i ∧ i < h ∧ j = w) (fun i j => dual i j * 2) <|
  zipWrite (fun i j => 1 ≤ i ∧ i < h ∧ j = 0) (fun i j => dual i j * 2) <|
  zipWrite (fun i j => i = h ∧ 1 ≤ j ∧ j < w) (fun i j => dual i j * 2) <|
  zipWrite (fun i j => i = 0 ∧ 1 ≤ j ∧ j < w) (fun i j => dual i j * 2) <|
  zipWrite (fun i j => i = h - 1 ∧ j = w - 1) (fun i j => dual i j * 4) <|
  zipWrite (fun i j => i = h - 1 ∧ j = 0) (fun i j => dual i j * 4) <|
  zipWrite (fun i j => i = 0 ∧ j = w - 1) (fun i j => dual i j * 4) <|
  zipWrite (fun i j => i = 0 ∧ j = 0) (fun i j => dual i j * 4) primal

/-- `Hodge1::apply` for `Grid2d` (dec/grid.rs lines 144-159): the vertical
block is copied unchanged, the horizontal block is negated.  Both `Zip`
passes cover their whole block, so no prior-output argument is needed. -/
def hodge1_apply (primal : Staggered2d K) : Staggered2d K :=
  ⟨fun i j => primal.vert i j, fun i j => -primal.horiz i j⟩

/-- `Hodge1::apply_inv` for `Grid2d` (dec/grid.rs lines 160-175): the
vertical block is negated, the horizontal block is copied unchanged. -/
def hodge1_apply_inv (dual : Staggered2d K) : Staggered2d K :=
  ⟨fun i j => -dual.vert i j, fun i j => dual.horiz i j⟩

/-- `Hodge2::apply` for `Grid2d` (dec/grid.rs lines 182-184):
`dual.assign(primal)`, a full overwrite with the identity. -/
def hodge2_apply (primal : ℕ → ℕ → K) : ℕ → ℕ → K := primal

/-- `Hodge2::apply_inv` for `Grid2d` (dec/grid.rs lines 185-187). -/
def hodge2_apply_inv (dual : ℕ → ℕ → K) : ℕ → ℕ → K := dual

/-- `derivative_0_primal` (dec/grid.rs lines 220-234): both blocks are
fully overwritten; vertical edge `(i,j)` gets
`vertices[i][j+1] - vertices[i][j]`, horizontal edge `(i,j)` gets
`vertices[i+1][j] - vertices[i][j]`. -/
def derivative_0_primal (vertices : ℕ → ℕ → K) : Staggered2d K :=
  ⟨fun i j => vertices i (j + 1) - vertices i j,
   fun i j => vertices (i + 1) j - vertices i j⟩

/-- `derivative_0_dual` (dec/grid.rs lines 236-253), on a grid with
`dim = (h, w)`.  The vertical pass writes only the slice
`edges.0.slice_mut(s![1..-1, ..])`, i.e. rows `1 ≤ i < h` of the
`(h+1, w)` block, zipping `faces[..-1]` and `faces[1..]`, so
`edge[i][j] = -(faces[i][j] - faces[i-1][j])`; the horizontal pass writes
only columns `1 ≤ j < w` of the `(h, w+1)` block, with
`edge[i][j] = faces[i][j-1] - faces[i][j]`.  All other entries keep the
prior contents of the output container. -/
def derivative_0_dual (h w : ℕ) (edges : Staggered2d K) (faces : ℕ → ℕ → K) :
    Staggered2d K :=
  ⟨zipWrite (fun i _ => 1 ≤ i ∧ i < h)
     (fun i j => -(faces i j - faces (i - 1) j)) edges.vert,
   zipWrite (fun _ j => 1 ≤ j ∧ j < w)
     (fun i j => faces i (j - 1) - faces i j) edges.horiz⟩

/-- `derivative_1_primal` (dec/grid.rs lines 255-265): a full overwrite of
the face array; `top = edges.0[i][j]`, `bottom = edges.0[i+1][j]`,
`left = edges.1[i][j]`, `right = edges.1[i][j+1]`, and
`face = -bottom + top - left + right`. -/
def derivative_1_primal (edges : Staggered2d K) : ℕ → ℕ → K :=
  fun i j =>
    -edges.vert (i + 1) j + edges.vert i j - edges.horiz i j + edges.horiz i (j + 1)

/-- Cause of a Rust panic raised by the operators below. -/
inductive RustPanic where
  | unimplemented
  deriving DecidableEq

/-- A sparse matrix in the interface described by the spec (a set of
`(row, col) → value` insertions); never constructed by this crate. -/
structure SparseMatrix (K : Type) where
  entries : List ((ℕ × ℕ) × K)

/-- A diagonal matrix in the interface described by the spec; never
constructed by this crate. -/
structure DiagonalMatrix (K : Type) where
  diag : List K

/-- `derivative_1_dual` (dec/grid.rs lines 267-269): the body is
`unimplemented!()`, which panics unconditionally. -/
def derivative_1_dual (h w : ℕ) (faces : ℕ → ℕ → K) (edges : Staggered2d K) :
    Except RustPanic (ℕ → ℕ → K) :=
  Except.error RustPanic.unimplemented

/-- `derivative_0_primal_matrix` (dec/grid.rs lines 271-303): the live body
is `unimplemented!()` (the remainder is commented out). -/
def derivative_0_primal_matrix (h w : ℕ) : Except RustPanic (SparseMatrix K) :=
  Except.error RustPanic.unimplemented

/-- `derivative_0_dual_matrix` (dec/grid.rs lines 305-307). -/
def derivative_0_dual_matrix (h w : ℕ) : Except RustPanic (SparseMatrix K) :=
  Except.error RustPanic.unimplemented

/-- `derivative_1_primal_matrix` (dec/grid.rs lines 309-311). -/
def derivative_1_primal_matrix (h w : ℕ) : Except RustPanic (SparseMatrix K) :=
  Except.error RustPanic.unimplemented

/-- `derivative_1_dual_matrix` (dec/grid.rs lines 312-314). -/
def derivative_1_dual_matrix (h w : ℕ) : Except RustPanic (SparseMatrix K) :=
  Except.error RustPanic.unimplemented

/-- `hodge_0_primal_matrix` (dec/grid.rs lines 316-318). -/
def hodge_0_primal_matrix (h w : ℕ) : Except RustPanic (DiagonalMatrix K) :=
  Except.error RustPanic.unimplemented

/-- `hodge_1_primal_matrix` (dec/grid.rs lines 319-321). -/
def hodge_1_primal_matrix (h w : ℕ) : Except RustPanic (DiagonalMatrix K) :=
  Except.error RustPanic.unimplemented

/-- `hodge_2_primal_matrix` (dec/grid.rs lines 322-324). -/
def hodge_2_primal_matrix (h w : ℕ) : Except RustPanic (DiagonalMatrix K) :=
  Except.error RustPanic.unimplemented

/-- `hodge_0_dual_matrix` (dec/grid.rs lines 326-328). -/
def hodge_0_dual_matrix (h w : ℕ) : Except RustPanic (DiagonalMatrix K) :=
  Except.error RustPanic.unimplemented

/-- `hodge_1_dual_matrix` (dec/grid.rs lines 329-331). -/
def hodge_1_dual_matrix (h w : ℕ) : Except RustPanic (DiagonalMatrix K) :=
  Except.error RustPanic.unimplemented

/-- `hodge_2_dual_matrix` (dec/grid.rs lines 332-334). -/
def hodge_2_dual_matrix (h w : ℕ) : Except RustPanic (DiagonalMatrix K) :=
  Except.error RustPanic.unimplemented

/-- Facade wrapper `hodge_0_primal` (dec/manifold.rs lines 43-45):
delegates to `Hodge0::apply`. -/
def hodge_0_primal (h w : ℕ) (dual primal : ℕ → ℕ → K) : ℕ → ℕ → K :=
  hodge0_apply h w dual primal

/-- Facade wrapper `hodge_2_dual` (dec/manifold.rs lines 46-48):
delegates to `Hodge0::apply_inv` (not to `Hodge2`). -/
def hodge_2_dual (h w : ℕ) (primal dual : ℕ → ℕ → K) : ℕ → ℕ → K :=
  hodge0_apply_inv h w primal dual

/-- Facade wrapper `hodge_1_primal` (dec/manifold.rs lines 50-52):
delegates to `Hodge1::apply`. -/
def hodge_1_primal (primal : Staggered2d K) : Staggered2d K :=
  hodge1_apply primal

/-- Facade wrapper `hodge_1_dual` (dec/manifold.rs lines 53-55):
delegates to `Hodge1::apply_inv`. -/
def hodge_1_dual (dual : Staggered2d K) : Staggered2d K :=
  hodge1_apply_inv dual

/-- Facade wrapper `hodge_2_primal` (dec/manifold.rs lines 57-59):
delegates to `Hodge2::apply`. -/
def hodge_2_primal (primal : ℕ → ℕ → K) : ℕ → ℕ → K :=
  hodge2_apply primal

/-- Facade wrapper `hodge_0_dual` (dec/manifold.rs lines 60-62):
delegates to `Hodge2::apply_inv` (not to `Hodge0`). -/
def hodge_0_dual (dual : ℕ → ℕ → K) : ℕ → ℕ → K :=
  hodge2_apply_inv dual

/-- Pointwise combination `a·x + b·y` of two 2D arrays. -/
def smulAdd2 (a b : K) (x y : ℕ → ℕ → K) : ℕ → ℕ → K :=
  fun i j => a * x i j + b * y i j

/-- Pointwise combination `a·x + b·y` of two staggered 1-forms. -/
def smulAddS (a b : K) (x y : Staggered2d K) : Staggered2d K :=
  ⟨smulAdd2 a b x.vert y.vert, smulAdd2 a b x.horiz y.horiz⟩

/-- The bounded uniform grid of sph/grid.rs, specialized (as in the source's
only impl block) to two dimensions.  The scalar type `S: Real` is modelled
by `ℚ` so that `floor` is exact; the `cell_ranges` vector is not modelled
because `get_key` and `get_cell` never read it. -/
structure BoundedGrid where
  num_cells : ℕ × ℕ
  cell_size : ℚ

/-- `usize::MAX` on a 64-bit target. -/
def USIZE_MAX : ℕ := 2 ^ 64 - 1

/-- `BoundedGrid::get_cell` (sph/grid.rs lines 36-46): floor-divide each
coordinate by the cell size, keep the pair when both components lie in
`[0, num_cells)`, otherwise return the absence signal.  The source computes
the floors as `i64`; the mathematical integer is used here (exact whenever
the floor fits in `i64`, which the in-range case always satisfies). -/
def get_cell (g : BoundedGrid) (position : ℚ × ℚ) : Option (ℕ × ℕ) :=
  let x : ℤ := ⌊position.1 / g.cell_size⌋
  let y : ℤ := ⌊position.2 / g.cell_size⌋
  if 0 ≤ x ∧ x < (g.num_cells.1 : ℤ) ∧ 0 ≤ y ∧ y < (g.num_cells.2 : ℤ) then
    some (x.toNat, y.toNat)
  else none

/-- `BoundedGrid::get_key` (sph/grid.rs lines 28-34): the linearized cell
index `x + y * num_cells[0]` when the position is inside the grid, and the
sentinel `usize::MAX` otherwise.  The `% 2^64` models the wrapping `usize`
addition and multiplication of the release build. -/
def get_key (g : BoundedGrid) (position : ℚ × ℚ) : ℕ :=
  match get_cell g position with
  | some (x, y) => (x + y * g.num_cells.1) % 2 ^ 64
  | none => USIZE_MAX

/-- The face field of the `grid_2d_laplacian` test fixture
(dec/grid.rs lines 402-406), extended by zero outside the 3×3 range. -/
def laplacianTestFaces : ℕ → ℕ → ℚ := fun i j =>
  if i = 0 then (if j = 1 then -3 else 0)
  else if i = 1 then (if j = 1 then 2 else if j = 2 then 6 else 0)
  else if i = 2 then (if j = 0 then 1 else 0)
  else 0

/-- The pipeline of the `grid_2d_laplacian` test (dec/grid.rs lines
398-429) on a 3×3 grid: `hodge_2_primal`, `derivative_0_dual`,
`hodge_1_dual`, `derivative_1_primal`, with zero-initialized
intermediate containers. -/
def laplacianTestResult : ℕ → ℕ → ℚ :=
  derivative_1_primal
    (hodge_1_dual (derivative_0_dual 3 3 zeroS (hodge_2_primal laplacianTestFaces)))

/-- Pointwise reading of `hodge0_apply`: the nested conditionals listed with
the last write outermost (the write order of the source is read bottom-up in
the definition, so this is definitional). -/
theorem hodge0_apply_spec (h w : ℕ) (dual primal : ℕ → ℕ → ℚ) (i j : ℕ) :
    hodge0_apply h w dual primal i j =
      if 1 ≤ i ∧ i < h ∧ 1 ≤ j ∧ j < w then primal i j
      else if 1 ≤ i ∧ i < h ∧ j = w then primal i j / 2
      else if 1 ≤ i ∧ i < h ∧ j = 0 then primal i j / 2
      else if i = h ∧ 1 ≤ j ∧ j < w then primal i j / 2
      else if i = 0 ∧ 1 ≤ j ∧ j < w then primal i j / 2
      else if i = h - 1 ∧ j = w - 1 then primal i j / 4
      else if i = h - 1 ∧ j = 0 then primal i j / 4
      else if i = 0 ∧ j = w - 1 then primal i j / 4
      else if i = 0 ∧ j = 0 then primal i j / 4
      else dual i j := rfl

/-- Pointwise reading of `hodge0_apply_inv`, as for `hodge0_apply_spec`. -/
theorem hodge0_apply_inv_spec (h w : ℕ) (primal dual : ℕ → ℕ → ℚ) (i j : ℕ) :
    hodge0_apply_inv h w primal dual i j =
      if 1 ≤ i ∧ i < h ∧ 1 ≤ j ∧ j < w then dual i j
      else if 1 ≤ i ∧ i < h ∧ j = w then dual i j * 2
      else if 1 ≤ i ∧ i < h ∧ j = 0 then dual i j * 2
      else if i = h ∧ 1 ≤ j ∧ j < w then dual i j * 2
      else if i = 0 ∧ 1 ≤ j ∧ j < w then dual i j * 2
      else if i = h - 1 ∧ j = w - 1 then dual i j * 4
      else if i = h - 1 ∧ j = 0 then dual i j * 4
      else if i = 0 ∧ j = w - 1 then dual i j * 4
      else if i = 0 ∧ j = 0 then dual i j * 4
      else primal i j := rfl

/-- Linearity of the 0-form Hodge `apply` with a fresh zero output. -/
theorem hodge0_apply_linear (h w : ℕ) (a b : ℚ) (x y : ℕ → ℕ → ℚ) (i j : ℕ) :
    hodge0_apply h w zero2 (smulAdd2 a b x y) i j
      = a * hodge0_apply h w zero2 x i j + b * hodge0_apply h w zero2 y i j := by
  rw [hodge0_apply_spec, hodge0_apply_spec, hodge0_apply_spec]
  simp only [smulAdd2, zero2]
  by_cases c1 : 1 ≤ i ∧ i < h ∧ 1 ≤ j ∧ j < w
  · simp only [if_pos c1]; try ring
  simp only [if_neg c1]
  by_cases c2 : 1 ≤ i ∧ i < h ∧ j = w
  · simp only [if_pos c2]; try ring
  simp only [if_neg c2]
  by_cases c3 : 1 ≤ i ∧ i < h ∧ j = 0
  · simp only [if_pos c3]; try ring
  simp only [if_neg c3]
  by_cases c4 : i = h ∧ 1 ≤ j ∧ j < w
  · simp only [if_pos c4]; try ring
  simp only [if_neg c4]
  by_cases c5 : i = 0 ∧ 1 ≤ j ∧ j < w
  · simp only [if_pos c5]; try ring
  simp only [if_neg c5]
  by_cases c6 : i = h - 1 ∧ j = w - 1
  · simp only [if_pos c6]; try ring
  simp only [if_neg c6]
  by_cases c7 : i = h - 1 ∧ j = 0
  · simp only [if_pos c7]; try ring
  simp only [if_neg c7]
  by_cases c8 : i = 0 ∧ j = w - 1
  · simp only [if_pos c8]; try ring
  simp only [if_neg c8]
  by_cases c9 : i = 0 ∧ j = 0
  · simp only [if_pos c9]; try ring
  simp only [if_neg c9]
  ring

/-- Linearity of the 0-form Hodge `apply_inv` with a fresh zero output. -/
theorem hodge0_apply_inv_linear (h w : ℕ) (a b : ℚ) (x y : ℕ → ℕ → ℚ) (i j : ℕ) :
    hodge0_apply_inv h w zero2 (smulAdd2 a b x y) i j
      = a * hodge0_apply_inv h w zero2 x i j + b * hodge0_apply_inv h w zero2 y i j := by
  rw [hodge0_apply_inv_spec, hodge0_apply_inv_spec, hodge0_apply_inv_spec]
  simp only [smulAdd2, zero2]
  by_cases c1 : 1 ≤ i ∧ i < h ∧ 1 ≤ j ∧ j < w
  · simp only [if_pos c1]; try ring
  simp only [if_neg c1]
  by_cases c2 : 1 ≤ i ∧ i < h ∧ j = w
  · simp only [if_pos c2]; try ring
  simp only [if_neg c2]
  by_cases c3 : 1 ≤ i ∧ i < h ∧ j = 0
  · simp only [if_pos c3]; try ring
  simp only [if_neg c3]
  by_cases c4 : i = h ∧ 1 ≤ j ∧ j < w
  · simp only [if_pos c4]; try ring
  simp only [if_neg c4]
  by_cases c5 : i = 0 ∧ 1 ≤ j ∧ j < w
  · simp only [if_pos c5]; try ring
  simp only [if_neg c5]
  by_cases c6 : i = h - 1 ∧ j = w - 1
  · simp only [if_pos c6]; try ring
  simp only [if_neg c6]
  by_cases c7 : i = h - 1 ∧ j = 0
  · simp only [if_pos c7]; try ring
  simp only [if_neg c7]
  by_cases c8 : i = 0 ∧ j = w - 1
  · simp only [if_pos c8]; try ring
  simp only [if_neg c8]
  by_cases c9 : i = 0 ∧ j = 0
  · simp only [if_pos c9]; try ring
  simp only [if_neg c9]
  ring

/-- Composing `hodge0_apply` then `hodge0_apply_inv` (fresh zero outputs)
reproduces the input at every vertex the operator writes: with `h, w ≥ 1`
that is every in-range vertex of the `(h+1, w+1)` array except `(0, w)`,
`(h, 0)` and `(h, w)`, which both passes leave untouched. -/
theorem hodge0_roundtrip_written (h w : ℕ) (x : ℕ → ℕ → ℚ) (i j : ℕ)
    (hh : 1 ≤ h) (hw : 1 ≤ w) (hi : i ≤ h) (hj : j ≤ w)
    (k1 : ¬(i = 0 ∧ j = w)) (k2 : ¬(i = h ∧ j = 0)) (k3 : ¬(i = h ∧ j = w)) :
    hodge0_apply_inv h w zero2 (hodge0_apply h w zero2 x) i j = x i j := by
  rw [hodge0_apply_inv_spec, hodge0_apply_spec]
  simp only [zero2]
  by_cases c1 : 1 ≤ i ∧ i < h ∧ 1 ≤ j ∧ j < w
  · simp only [if_pos c1]; try ring
  simp only [if_neg c1]
  by_cases c2 : 1 ≤ i ∧ i < h ∧ j = w
  · simp only [if_pos c2]; try ring
  simp only [if_neg c2]
  by_cases c3 : 1 ≤ i ∧ i < h ∧ j = 0
  · simp only [if_pos c3]; try ring
  simp only [if_neg c3]
  by_cases c4 : i = h ∧ 1 ≤ j ∧ j < w
  · simp only [if_pos c4]; try ring
  simp only [if_neg c4]
  by_cases c5 : i = 0 ∧ 1 ≤ j ∧ j < w
  · simp only [if_pos c5]; try ring
  simp only [if_neg c5]
  by_cases c6 : i = h - 1 ∧ j = w - 1
  · simp only [if_pos c6]; try ring
  simp only [if_neg c6]
  by_cases c7 : i = h - 1 ∧ j = 0
  · simp only [if_pos c7]; try ring
  simp only [if_neg c7]
  by_cases c8 : i = 0 ∧ j = w - 1
  · simp only [if_pos c8]; try ring
  simp only [if_neg c8]
  by_cases c9 : i = 0 ∧ j = 0
  · simp only [if_pos c9]; try ring
  simp only [if_neg c9]
  exfalso; omega

/-- The embedding reproduces the `grid_2d_laplacian` regression fixture of
dec/grid.rs: the four-stage pipeline on the given 3×3 face field yields the
reference array `[3, -11, -3, -3, 5, 16, 2, -3, -6]` (here exactly; the
test compares with tolerance 1e-3). -/
theorem laplacian_fixture :
    laplacianTestResult 0 0 = 3 ∧ laplacianTestResult 0 1 = -11 ∧
    laplacianTestResult 0 2 = -3 ∧ laplacianTestResult 1 0 = -3 ∧
    laplacianTestResult 1 1 = 5 ∧ laplacianTestResult 1 2 = 16 ∧
    laplacianTestResult 2 0 = 2 ∧ laplacianTestResult 2 1 = -3 ∧
    laplacianTestResult 2 2 = -6 := by
  refine ⟨?_, ?_, ?_, ?_, ?_, ?_, ?_, ?_, ?_⟩ <;>
    norm_num [laplacianTestResult, laplacianTestFaces, derivative_1_primal,
      hodge_1_dual, hodge1_apply_inv, derivative_0_dual, zipWrite,
      hodge_2_primal, hodge2_apply, zeroS, zero2]

/-- C1: the Hodge round-trip `apply_inv (apply x) = x` holds exactly for
2-forms; for 1-forms the round trip is `-x` (the double Hodge star is `-1`
on 1-forms of a 2D grid, as the sign conventions of `Hodge1` implement);
for 0-forms it reproduces `x` at every vertex of the `(h+1, w+1)` array
except the three corners `(0, w)`, `(h, 0)`, `(h, w)`, which both passes
leave untouched (fresh zero outputs keep the value 0 there). -/
theorem C1_hodge_roundtrip (h w : ℕ) (f : ℕ → ℕ → ℚ) (s : Staggered2d ℚ)
    (x : ℕ → ℕ → ℚ) (i j : ℕ) :
    hodge2_apply_inv (hodge2_apply f) i j = f i j ∧
    (hodge1_apply_inv (hodge1_apply s)).vert i j = -s.vert i j ∧
    (hodge1_apply_inv (hodge1_apply s)).horiz i j = -s.horiz i j ∧
    (1 ≤ h → 1 ≤ w → i ≤ h → j ≤ w →
      ¬(i = 0 ∧ j = w) → ¬(i = h ∧ j = 0) → ¬(i = h ∧ j = w) →
      hodge0_apply_inv h w zero2 (hodge0_apply h w zero2 x) i j = x i j) :=
  ⟨rfl, rfl, rfl,
   fun hh hw hi hj k1 k2 k3 =>
     hodge0_roundtrip_written h w x i j hh hw hi hj k1 k2 k3⟩

/-- C1 witness: the degree-0 round trip at the interior vertex `(1, 1)` of
a `2 × 2` grid. -/
theorem C1_hodge_roundtrip_witness :
    hodge0_apply_inv 2 2 zero2
        (hodge0_apply 2 2 zero2 (fun i j => (i : ℚ) + 10 * j)) 1 1
      = (fun i j => (i : ℚ) + 10 * j) 1 1 :=
  (C1_hodge_roundtrip 2 2 zero2 zeroS (fun i j => (i : ℚ) + 10 * j) 1 1).2.2.2
    (by decide) (by decide) (by decide) (by decide)
    (by decide) (by decide) (by decide)

/-- C1 counterexample: the round trip is not the identity for 1-forms — on
the constant-1 staggered field the vertical block comes back as `-1`. -/
theorem C1_hodge_roundtrip_counterexample :
    (hodge1_apply_inv (hodge1_apply
        (⟨fun _ _ => (1 : ℚ), fun _ _ => 1⟩ : Staggered2d ℚ))).vert 0 0
      ≠ (⟨fun _ _ => (1 : ℚ), fun _ _ => 1⟩ : Staggered2d ℚ).vert 0 0 := by
  norm_num [hodge1_apply, hodge1_apply_inv]

/-- C2: on a `2 × 2` grid (vertex array `3 × 3`) with input constantly 1
and a fresh zero output, the vertex `(0, 2)` — a corner of the vertex
array — is left at its prior value 0 instead of being scaled by 1/4: the
corner writes of `Hodge0::apply` target `(0, w-1)`, `(h-1, 0)`,
`(h-1, w-1)` on the `(h+1, w+1)` array and are then overwritten by the
side and interior passes, while only `(0, 0)` of the four true corners
receives the 1/4 weight. -/
theorem C2_hodge0_corner_bug :
    hodge0_apply 2 2 zero2 (fun _ _ => (1 : ℚ)) 0 2 = zero2 0 2 ∧
    hodge0_apply 2 2 zero2 (fun _ _ => (1 : ℚ)) 0 2 ≠ 1 / 4 ∧
    hodge0_apply 2 2 zero2 (fun _ _ => (1 : ℚ)) 0 0 = 1 / 4 := by
  refine ⟨rfl, ?_, ?_⟩ <;> norm_num [hodge0_apply, zipWrite, zero2]

/-- C3: each facade Hodge wrapper is pure delegation to a single Hodge
method, but the dual wrappers of degrees 0 and 2 delegate to the Hodge of
the complementary degree: `hodge_2_dual` calls the 0-form Hodge
`apply_inv` and `hodge_0_dual` calls the 2-form Hodge `apply_inv`;
the primal wrappers and `hodge_1_dual` delegate to the named degree. -/
theorem C3_hodge_wrappers (h w : ℕ) (prev x : ℕ → ℕ → ℚ)
    (s t : Staggered2d ℚ) (f d : ℕ → ℕ → ℚ) :
    hodge_0_primal h w prev x = hodge0_apply h w prev x ∧
    hodge_2_dual h w prev x = hodge0_apply_inv h w prev x ∧
    hodge_1_primal s = hodge1_apply s ∧
    hodge_1_dual t = hodge1_apply_inv t ∧
    hodge_2_primal f = hodge2_apply f ∧
    hodge_0_dual d = hodge2_apply_inv d :=
  ⟨rfl, rfl, rfl, rfl, rfl, rfl⟩

/-- C3 counterexample: `hodge_2_dual` does not behave as the 2-form Hodge
`apply_inv` (the identity): on a `2 × 2` grid with input constantly 1 it
returns 4 at `(0, 0)`. -/
theorem C3_hodge_wrappers_counterexample :
    hodge_2_dual 2 2 zero2 (fun _ _ => (1 : ℚ)) 0 0
      ≠ hodge2_apply_inv (fun _ _ => (1 : ℚ)) 0 0 := by
  norm_num [hodge_2_dual, hodge0_apply_inv, zipWrite, zero2, hodge2_apply_inv]

/-- C4: the 1-form Hodge `apply` copies the vertical-edge block and negates
the horizontal-edge block; `apply_inv` negates the vertical-edge block and
copies the horizontal-edge block. -/
theorem C4_hodge1_sign_convention (p d : Staggered2d ℚ) (i j : ℕ) :
    (hodge1_apply p).vert i j = p.vert i j ∧
    (hodge1_apply p).horiz i j = -p.horiz i j ∧
    (hodge1_apply_inv d).vert i j = -d.vert i j ∧
    (hodge1_apply_inv d).horiz i j = d.horiz i j :=
  ⟨rfl, rfl, rfl, rfl⟩

/-- C5: the dual 0→1 derivative writes each interior vertical edge (rows
`1 ≤ i < h` of the vertical block) as `-(faceBelow - faceAbove)` and each
interior horizontal edge (columns `1 ≤ j < w`) as `faceLeft - faceRight`. -/
theorem C5_d0dual_interior (h w : ℕ) (prev : Staggered2d ℚ)
    (faces : ℕ → ℕ → ℚ) (i j : ℕ) :
    (1 ≤ i → i < h →
      (derivative_0_dual h w prev faces).vert i j
        = -(faces i j - faces (i - 1) j)) ∧
    (1 ≤ j → j < w →
      (derivative_0_dual h w prev faces).horiz i j
        = faces i (j - 1) - faces i j) := by
  constructor <;>
    · intro h1 h2
      simp only [derivative_0_dual, zipWrite]
      rw [if_pos (by omega)]

/-- C5 witness: the interior vertical edge `(1, 1)` on a `2 × 2` grid. -/
theorem C5_d0dual_interior_witness :
    (derivative_0_dual 2 2 zeroS (fun p q => (p : ℚ) * 10 + q)).vert 1 1
      = -((fun (p q : ℕ) => (p : ℚ) * 10 + q) 1 1
          - (fun (p q : ℕ) => (p : ℚ) * 10 + q) (1 - 1) 1) :=
  (C5_d0dual_interior 2 2 zeroS (fun p q => (p : ℚ) * 10 + q) 1 1).1
    (by decide) (by decide)

/-- C6: the dual 0→1 derivative leaves the outermost rows of the
vertical-edge block (rows 0 and `h`) and the outermost columns of the
horizontal-edge block (columns 0 and `w`) exactly at the prior contents of
the output container. -/
theorem C6_d0dual_boundary_frame (h w : ℕ) (prev : Staggered2d ℚ)
    (faces : ℕ → ℕ → ℚ) (i j : ℕ) :
    (derivative_0_dual h w prev faces).vert 0 j = prev.vert 0 j ∧
    (derivative_0_dual h w prev faces).vert h j = prev.vert h j ∧
    (derivative_0_dual h w prev faces).horiz i 0 = prev.horiz i 0 ∧
    (derivative_0_dual h w prev faces).horiz i w = prev.horiz i w := by
  refine ⟨?_, ?_, ?_, ?_⟩ <;>
    · simp only [derivative_0_dual, zipWrite]
      rw [if_neg (by omega)]

/-- C7: the primal 1→2 derivative sets each face to
`-bottom + top - left + right`, with `top`/`bottom` the vertical-block
entries in the face's row and the row below, and `left`/`right` the
horizontal-block entries in the face's column and the column to the
right. -/
theorem C7_d1primal_stencil (e : Staggered2d ℚ) (i j : ℕ) :
    derivative_1_primal e i j
      = -e.vert (i + 1) j + e.vert i j - e.horiz i j + e.horiz i (j + 1) :=
  rfl

/-- C8: the dual 1→0 derivative and all ten matrix-assembly accessors
raise the distinguishable not-implemented signal on every call and never
return an `ok` value. -/
theorem C8_unimplemented_signal (h w : ℕ) (f : ℕ → ℕ → ℚ) (e : Staggered2d ℚ) :
    (derivative_1_dual h w f e = Except.error RustPanic.unimplemented ∧
      ∀ v, derivative_1_dual h w f e ≠ Except.ok v) ∧
    (derivative_0_primal_matrix (K := ℚ) h w = Except.error RustPanic.unimplemented ∧
      ∀ m, derivative_0_primal_matrix (K := ℚ) h w ≠ Except.ok m) ∧
    (derivative_0_dual_matrix (K := ℚ) h w = Except.error RustPanic.unimplemented ∧
      ∀ m, derivative_0_dual_matrix (K := ℚ) h w ≠ Except.ok m) ∧
    (derivative_1_primal_matrix (K := ℚ) h w = Except.error RustPanic.unimplemented ∧
      ∀ m, derivative_1_primal_matrix (K := ℚ) h w ≠ Except.ok m) ∧
    (derivative_1_dual_matrix (K := ℚ) h w = Except.error RustPanic.unimplemented ∧
      ∀ m, derivative_1_dual_matrix (K := ℚ) h w ≠ Except.ok m) ∧
    (hodge_0_primal_matrix (K := ℚ) h w = Except.error RustPanic.unimplemented ∧
      ∀ m, hodge_0_primal_matrix (K := ℚ) h w ≠ Except.ok m) ∧
    (hodge_1_primal_matrix (K := ℚ) h w = Except.error RustPanic.unimplemented ∧
      ∀ m, hodge_1_primal_matrix (K := ℚ) h w ≠ Except.ok m) ∧
    (hodge_2_primal_matrix (K := ℚ) h w = Except.error RustPanic.unimplemented ∧
      ∀ m, hodge_2_primal_matrix (K := ℚ) h w ≠ Except.ok m) ∧
    (hodge_0_dual_matrix (K := ℚ) h w = Except.error RustPanic.unimplemented ∧
      ∀ m, hodge_0_dual_matrix (K := ℚ) h w ≠ Except.ok m) ∧
    (hodge_1_dual_matrix (K := ℚ) h w = Except.error RustPanic.unimplemented ∧
      ∀ m, hodge_1_dual_matrix (K := ℚ) h w ≠ Except.ok m) ∧
    (hodge_2_dual_matrix (K := ℚ) h w = Except.error RustPanic.unimplemented ∧
      ∀ m, hodge_2_dual_matrix (K := ℚ) h w ≠ Except.ok m) :=
  ⟨⟨rfl, fun _ hv => Except.noConfusion hv⟩,
   ⟨rfl, fun _ hv => Except.noConfusion hv⟩,
   ⟨rfl, fun _ hv => Except.noConfusion hv⟩,
   ⟨rfl, fun _ hv => Except.noConfusion hv⟩,
   ⟨rfl, fun _ hv => Except.noConfusion hv⟩,
   ⟨rfl, fun _ hv => Except.noConfusion hv⟩,
   ⟨rfl, fun _ hv => Except.noConfusion hv⟩,
   ⟨rfl, fun _ hv => Except.noConfusion hv⟩,
   ⟨rfl, fun _ hv => Except.noConfusion hv⟩,
   ⟨rfl, fun _ hv => Except.noConfusion hv⟩,
   ⟨rfl, fun _ hv => Except.noConfusion hv⟩⟩

/-- C9: every Hodge operator (both methods, degrees 0, 1, 2) and every
implemented derivative operator (primal 0→1, dual 0→1, primal 1→2), as a
function from input form to freshly zero-initialized output, is linear:
`op (a·x + b·y) = a·op x + b·op y` pointwise. -/
theorem C9_operator_linearity (h w : ℕ) (a b : ℚ) (x y : ℕ → ℕ → ℚ)
    (s t : Staggered2d ℚ) (i j : ℕ) :
    hodge0_apply h w zero2 (smulAdd2 a b x y) i j
      = a * hodge0_apply h w zero2 x i j + b * hodge0_apply h w zero2 y i j ∧
    hodge0_apply_inv h w zero2 (smulAdd2 a b x y) i j
      = a * hodge0_apply_inv h w zero2 x i j
        + b * hodge0_apply_inv h w zero2 y i j ∧
    (hodge1_apply (smulAddS a b s t)).vert i j
      = a * (hodge1_apply s).vert i j + b * (hodge1_apply t).vert i j ∧
    (hodge1_apply (smulAddS a b s t)).horiz i j
      = a * (hodge1_apply s).horiz i j + b * (hodge1_apply t).horiz i j ∧
    (hodge1_apply_inv (smulAddS a b s t)).vert i j
      = a * (hodge1_apply_inv s).vert i j + b * (hodge1_apply_inv t).vert i j ∧
    (hodge1_apply_inv (smulAddS a b s t)).horiz i j
      = a * (hodge1_apply_inv s).horiz i j + b * (hodge1_apply_inv t).horiz i j ∧
    hodge2_apply (smulAdd2 a b x y) i j
      = a * hodge2_apply x i j + b * hodge2_apply y i j ∧
    hodge2_apply_inv (smulAdd2 a b x y) i j
      = a * hodge2_apply_inv x i j + b * hodge2_apply_inv y i j ∧
    (derivative_0_primal (smulAdd2 a b x y)).vert i j
      = a * (derivative_0_primal x).vert i j
        + b * (derivative_0_primal y).vert i j ∧
    (derivative_0_primal (smulAdd2 a b x y)).horiz i j
      = a * (derivative_0_primal x).horiz i j
        + b * (derivative_0_primal y).horiz i j ∧
    (derivative_0_dual h w zeroS (smulAdd2 a b x y)).vert i j
      = a * (derivative_0_dual h w zeroS x).vert i j
        + b * (derivative_0_dual h w zeroS y).vert i j ∧
    (derivative_0_dual h w zeroS (smulAdd2 a b x y)).horiz i j
      = a * (derivative_0_dual h w zeroS x).horiz i j
        + b * (derivative_0_dual h w zeroS y).horiz i j ∧
    derivative_1_primal (smulAddS a b s t) i j
      = a * derivative_1_primal s i j + b * derivative_1_primal t i j := by
  refine ⟨hodge0_apply_linear h w a b x y i j,
    hodge0_apply_inv_linear h w a b x y i j,
    rfl, ?_, ?_, rfl, rfl, rfl, ?_, ?_, ?_, ?_, ?_⟩
  · simp only [hodge1_apply, smulAddS, smulAdd2]; ring
  · simp only [hodge1_apply_inv, smulAddS, smulAdd2]; ring
  · simp only [derivative_0_primal, smulAdd2]; ring
  · simp only [derivative_0_primal, smulAdd2]; ring
  · simp only [derivative_0_dual, zipWrite, smulAdd2, zeroS, zero2]
    split_ifs <;> ring
  · simp only [derivative_0_dual, zipWrite, smulAdd2, zeroS, zero2]
    split_ifs <;> ring
  · simp only [derivative_1_primal, smulAddS, smulAdd2]; ring

/-- C10: whenever `get_cell` signals absence, `get_key` returns the
sentinel `usize::MAX`, which is not a valid cell index (the cell count is
bounded by the allocation of the `cell_ranges` vector); whenever
`get_cell` returns the containing cell `(x, y)`, `get_key` returns
`x + y * num_cells[0]`, a valid cell index. -/
theorem C10_grid_key (g : BoundedGrid) (p : ℚ × ℚ)
    (hcap : g.num_cells.1 * g.num_cells.2 ≤ USIZE_MAX) :
    (get_cell g p = none → get_key g p = USIZE_MAX) ∧
    ¬ USIZE_MAX < g.num_cells.1 * g.num_cells.2 ∧
    ∀ x y, get_cell g p = some (x, y) →
      get_key g p = x + y * g.num_cells.1 ∧
      x + y * g.num_cells.1 < g.num_cells.1 * g.num_cells.2 := by
  refine ⟨fun hnone => by simp only [get_key, hnone], not_lt.mpr hcap, ?_⟩
  intro x y hsome
  have hkey : get_key g p = (x + y * g.num_cells.1) % 2 ^ 64 := by
    simp only [get_key, hsome]
  have hbounds : x < g.num_cells.1 ∧ y < g.num_cells.2 := by
    simp only [get_cell] at hsome
    split at hsome
    · next hc =>
        simp only [Option.some.injEq, Prod.mk.injEq] at hsome
        obtain ⟨hx, hy⟩ := hsome
        omega
    · exact absurd hsome (by simp)
  obtain ⟨hx, hy⟩ := hbounds
  have hlt : x + y * g.num_cells.1 < g.num_cells.1 * g.num_cells.2 := by
    calc x + y * g.num_cells.1 < g.num_cells.1 + y * g.num_cells.1 :=
          Nat.add_lt_add_right hx _
      _ = (y + 1) * g.num_cells.1 := by ring
      _ ≤ g.num_cells.2 * g.num_cells.1 := Nat.mul_le_mul_right _ (by omega)
      _ = g.num_cells.1 * g.num_cells.2 := Nat.mul_comm _ _
  refine ⟨?_, hlt⟩
  rw [hkey, Nat.mod_eq_of_lt (by simp only [USIZE_MAX] at hcap; omega)]

/-- C10 witness: a `2 × 2` grid with unit cells; the position `(1/2, 3/2)`
lies in cell `(0, 1)` and gets key `0 + 1 * 2`. -/
theorem C10_grid_key_witness :
    get_key ⟨(2, 2), 1⟩ ((1 : ℚ) / 2, (3 : ℚ) / 2) = 0 + 1 * 2 ∧
    0 + 1 * 2 < 2 * 2 :=
  (C10_grid_key ⟨(2, 2), 1⟩ ((1 : ℚ) / 2, (3 : ℚ) / 2)
      (by norm_num [USIZE_MAX])).2.2 0 1
    (by norm_num [get_cell])

end Panopaea
